import Mathlib

/-!
# Verification of the clan-bot point economy (src/main.py)

Shallow embedding of the point-economy core of the Discord clan bot:
clans, users, the append-only point log, the achievement table, the
per-user daily award budget, weekly rollover and the award/admin/shop
operations.  Timestamps are modelled as natural numbers of seconds since
a reference Monday 00:00:00 UTC, so that `weekday` and week-start
arithmetic mirror `datetime.utcnow().weekday()` and `get_week_start()`.

Python integers are unbounded, so point totals are `Int`; amounts that
the code only ever produces as non-negative naturals are `Nat` where the
source guarantees it (message award amounts).
-/

namespace ClanBot

/-- Seconds in a UTC day. -/
def secsPerDay : Nat := 86400

/-- Day index of a timestamp (UTC calendar day, used as the `%Y-%m-%d` key
of the daily tracker). -/
def dayIndex (t : Nat) : Nat := t / secsPerDay

/-- Source `datetime.utcnow().weekday()`: 0 = Monday, ..., 6 = Sunday.  The epoch
of our time scale is a Monday 00:00:00 UTC. -/
def weekday (t : Nat) : Nat := dayIndex t % 7

/-- Source `get_week_start()` (src/main.py:197-199): the most recent Monday
00:00:00 UTC at or before `t`. -/
def week_start (t : Nat) : Nat := (dayIndex t - weekday t) * secsPerDay

/-- Source `MESSAGE_COOLDOWN = 5` (src/main.py:179). -/
def MESSAGE_COOLDOWN : Nat := 5

/-- Source `MAX_DAILY_POINTS = 500` (src/main.py:180). -/
def MAX_DAILY_POINTS : Int := 500

/-- Row of the `clans` table (src/main.py:73-79).  `lastWeekStart` is the
`last_week_start` TEXT column: `none` models the empty/NULL string (which
is falsy in `get_clan_points`), `some t` an ISO timestamp. -/
structure ClanRow where
  points : Int
  lastWeekStart : Option Nat
  lastWeekPoints : Int
  maxPoints : Int
  deriving Repr, DecidableEq

/-- Row of the `users` table (src/main.py:80-88), restricted to the columns
the point economy reads or writes. -/
structure UserRow where
  clanName : Option String
  points : Int
  lastActive : Option Nat
  joinDate : Option Nat
  deriving Repr, DecidableEq

/-- Row of the append-only `logs` table (src/main.py:89-95). -/
structure LogEntry where
  userId : Nat
  amount : Int
  src : String
  timestamp : Nat
  channelId : Option Nat
  deriving Repr, DecidableEq

/-- Pointwise update of a finite-map-as-function (a SQL `UPDATE`/`INSERT`
on a keyed table). -/
def upd {α β : Type} [DecidableEq α] (f : α → β) (k : α) (v : β) : α → β :=
  fun x => if x = k then v else f x

/-- The durable tables plus the process-local daily budget tracker
(`user_daily_points`, src/main.py:176).  The rate-limiter dictionary
`last_message_time` is a separate process-local map consulted only by
`on_message`; none of the operations below read it, so it is kept outside
this state.  `dailyDate uid = none` models the empty-date default entry
of the defaultdict. -/
structure DB where
  clans : String → Option ClanRow
  users : Nat → Option UserRow
  logs : List LogEntry
  achievements : List (Nat × String)
  shop : String → Option Int
  channelMultipliers : Nat → Option ℚ
  dailyDate : Nat → Option Nat
  dailyPoints : Nat → Int

/-- The empty datastore right after `init_database` (src/main.py:66-171). -/
def initDB : DB where
  clans := fun _ => none
  users := fun _ => none
  logs := []
  achievements := []
  shop := fun _ => none
  channelMultipliers := fun _ => none
  dailyDate := fun _ => none
  dailyPoints := fun _ => 0

/-- Source `check_daily_limit(user_id, points_to_add)` (src/main.py:187-195).
If the stored date is not today the entry is reset in place (a side
effect that persists even when the check then fails); the check itself is
inclusive: `points + points_to_add <= MAX_DAILY_POINTS`. -/
def check_daily_limit (st : DB) (uid : Nat) (pointsToAdd : Int) (now : Nat) :
    Bool × DB :=
  let today := dayIndex now
  let st' :=
    if st.dailyDate uid = some today then st
    else { st with
            dailyDate := upd st.dailyDate uid (some today)
            dailyPoints := upd st.dailyPoints uid 0 }
  (decide (st'.dailyPoints uid + pointsToAdd ≤ MAX_DAILY_POINTS), st')

/-- Source `get_clan_points(clan)` (src/main.py:201-220).  Lazy weekly rollover:
when the stored `last_week_start` is non-empty and strictly earlier than
`get_week_start()`, the current points are archived to `last_week_points`,
points are reset to 0, `last_week_start` is advanced, and 0 is returned. -/
def get_clan_points (st : DB) (clan : String) (now : Nat) :
    Option Int × DB :=
  match st.clans clan with
  | none => (none, st)
  | some cl =>
    match cl.lastWeekStart with
    | none => (some cl.points, st)
    | some lastReset =>
      if week_start now > lastReset then
        (some 0,
         { st with clans := upd st.clans clan (some
            { cl with
              lastWeekPoints := cl.points
              points := 0
              lastWeekStart := some (week_start now) }) })
      else (some cl.points, st)

/-- Source `can_add_to_clan(clan, amount)` (src/main.py:236-249): reads current
points (triggering rollover), then the clan `max_points`, and accepts
iff the clan exists and `current + amount <= max_points`. -/
def can_add_to_clan (st : DB) (clan : String) (amount : Int) (now : Nat) :
    Bool × DB :=
  let r := get_clan_points st clan now
  match r.2.clans clan with
  | none => (false, r.2)
  | some cl =>
    match r.1 with
    | none => (false, r.2)
    | some cur => (decide (cur + amount ≤ cl.maxPoints), r.2)

/-- Source `"Reached {milestone} Points"` (src/main.py:392). -/
def achievementName (milestone : Nat) : String :=
  "Reached " ++ toString milestone ++ " Points"

/-- Source `milestones` (src/main.py:389). -/
def milestones : List Nat := [100, 500, 1000, 2500, 5000, 10000]

/-- Source `INSERT OR IGNORE INTO achievements` under the `(user_id,
achievement_name)` primary key (src/main.py:100-105, 393-394). -/
def insertAchievement (l : List (Nat × String)) (e : Nat × String) :
    List (Nat × String) :=
  if e ∈ l then l else l ++ [e]

/-- Source `check_achievements(user_id)` (src/main.py:377-401): for every
milestone not exceeding the user lifetime points, inserts the
achievement row if absent and appends its name to the returned list —
the list is built regardless of whether the insert was ignored. -/
def check_achievements (st : DB) (uid : Nat) : List String × DB :=
  match st.users uid with
  | none => ([], st)
  | some u =>
    let names := (milestones.filter (fun m : Nat => decide ((m : Int) ≤ u.points))).map
      achievementName
    let ach := names.foldl (fun acc n => insertAchievement acc (uid, n)) st.achievements
    (names, { st with achievements := ach })

/-- Source `add_points_to_clan_and_user(user_id, clan, amount, source, channel_id)`
(src/main.py:296-344): clan-cap gate, daily-budget gate, then in one
transaction update clan points, update-or-create the user row, append the
log entry, commit the daily reservation, and run `check_achievements`. -/
def add_points_to_clan_and_user (st : DB) (uid : Nat) (clan : String)
    (amount : Int) (src : String) (channelId : Option Nat) (now : Nat) :
    Bool × DB :=
  let g1 := can_add_to_clan st clan amount now
  if !g1.1 then (false, g1.2) else
  let g2 := check_daily_limit g1.2 uid amount now
  if !g2.1 then (false, g2.2) else
  let g3 := get_clan_points g2.2 clan now
  match g3.1 with
  | none => (false, g3.2)
  | some cur =>
    match g3.2.clans clan with
    | none => (false, g3.2)
    | some cl =>
      let st4 := { g3.2 with clans := upd g3.2.clans clan (some
        { cl with points := cur + amount }) }
      let st5 :=
        match st4.users uid with
        | some u => { st4 with users := upd st4.users uid (some
            { u with points := u.points + amount, lastActive := some now }) }
        | none => { st4 with users := upd st4.users uid (some
            (UserRow.mk (some clan) amount (some now) (some now))) }
      let st6 := { st5 with logs := st5.logs ++ [LogEntry.mk uid amount src now channelId] }
      let st7 := { st6 with
        dailyDate := upd st6.dailyDate uid (some (dayIndex now))
        dailyPoints := upd st6.dailyPoints uid (st6.dailyPoints uid + amount) }
      (true, (check_achievements st7 uid).2)

/-- Result of `purchase` (src/main.py:579-615), distinguishing the three
rejection messages from success. -/
inductive PurchaseResult where
  | noItem
  | notRegistered
  | insufficient
  | ok
  deriving Repr, DecidableEq

/-- Source `purchase(ctx, item_name)` (src/main.py:579-615): looks up the item
cost, requires a user row and enough points, then deducts the cost from
the user points.  No row is appended to `logs`. -/
def purchase (st : DB) (uid : Nat) (itemName : String) : PurchaseResult × DB :=
  match st.shop itemName with
  | none => (.noItem, st)
  | some cost =>
    match st.users uid with
    | none => (.notRegistered, st)
    | some u =>
      if u.points < cost then (.insufficient, st)
      else (.ok, { st with users := upd st.users uid (some
        { u with points := u.points - cost }) })

/-- Source `removepoints(ctx, user, amount)` (src/main.py:1457-1501), after clan
resolution: validates `0 < amount ≤ 10000`, requires a user row with at
least `amount` points, then decrements the user, clamps the clan at zero
(`max(0, current - amount)`, reading current via `get_clan_points`), and
logs `-amount` with source `"admin_removal"`.  When `get_clan_points`
returns `None` the Python `max(0, None - amount)` raises and the outer
transaction rolls back, leaving the tables unchanged. -/
def removepoints (st : DB) (uid : Nat) (clan : String) (amount : Int)
    (channelId : Option Nat) (now : Nat) : Bool × DB :=
  if amount ≤ 0 then (false, st) else
  if amount > 10000 then (false, st) else
  match st.users uid with
  | none => (false, st)
  | some u =>
    if u.points < amount then (false, st) else
    let st1 := { st with users := upd st.users uid (some
      { u with points := u.points - amount }) }
    let g := get_clan_points st1 clan now
    match g.1 with
    | none => (false, st)
    | some cur =>
      match g.2.clans clan with
      | none => (false, st)
      | some cl =>
        let st3 := { g.2 with clans := upd g.2.clans clan (some
          { cl with points := max 0 (cur - amount) }) }
        (true, { st3 with logs := st3.logs ++
          [LogEntry.mk uid (-amount) "admin_removal" now channelId] })

/-- Source `addpoints(ctx, user, amount)` (src/main.py:1431-1455), after clan
resolution: validates `0 < amount ≤ 10000`, checks `can_add_to_clan`, then
delegates to `add_points_to_clan_and_user` with source `"admin"`. -/
def addpoints (st : DB) (uid : Nat) (clan : String) (amount : Int)
    (channelId : Option Nat) (now : Nat) : Bool × DB :=
  if amount ≤ 0 then (false, st) else
  if amount > 10000 then (false, st) else
  let g := can_add_to_clan st clan amount now
  if !g.1 then (false, g.2) else
  add_points_to_clan_and_user g.2 uid clan amount "admin" channelId now

/-- Source `datetime.utcnow().weekday() >= 5` (src/main.py:1962). -/
def isWeekend (t : Nat) : Bool := decide (5 ≤ weekday t)

/-- The message-award amount computed by `on_message`
(src/main.py:1959-1971): base 5 with the bonus role else 1; on weekends
`int(base * 1.5)`, where Python `int()` truncates toward zero — for the
non-negative bases here that is floor division `base * 3 / 2`; finally
+1 when the message content is longer than 50 characters. -/
def message_amount (hasBonus : Bool) (now : Nat) (contentLen : Nat) : Nat :=
  let base := if hasBonus then 5 else 1
  let base1 := if isWeekend now then base * 3 / 2 else base
  if contentLen > 50 then base1 + 1 else base1

/-- Source `setchannelmultiplier(ctx, channel, multiplier)` (src/main.py:2083-2100):
validates `0.1 ≤ multiplier ≤ 5.0`, then upserts the
`channel_multipliers` row.  No other code path ever reads this table. -/
def setchannelmultiplier (st : DB) (channelId : Nat) (multiplier : ℚ) :
    Bool × DB :=
  if multiplier < 1 / 10 ∨ multiplier > 5 then (false, st)
  else
    let cm := upd st.channelMultipliers channelId (some multiplier)
    (true, { st with channelMultipliers := cm })

/-- Modelled from the spec: §4.4 step 2 of the Award Engine, which is
absent from the award paths of `src/main.py` — "apply channel multiplier
(if configured for the channel) and active seasonal-event multiplier (if
`now` falls within an event [start,end] window) to `baseAmount`, then
round to nearest integer using round half up". -/
def specFinalAmount (baseAmount : ℚ) (channelMult seasonalMult : Option ℚ) : Int :=
  Int.floor (baseAmount * channelMult.getD 1 * seasonalMult.getD 1 + 1 / 2)

/-- The rollover applied to a single clan row at time `now`. -/
def rollRow (cl : ClanRow) (now : Nat) : ClanRow :=
  match cl.lastWeekStart with
  | none => cl
  | some lastReset =>
    if week_start now > lastReset then
      { cl with
        lastWeekPoints := cl.points
        points := 0
        lastWeekStart := some (week_start now) }
    else cl

/-- The `clans` table after `get_clan_points clan` ran at time `now`. -/
def rollClans (m : String → Option ClanRow) (clan : String) (now : Nat) :
    String → Option ClanRow :=
  match m clan with
  | none => m
  | some cl =>
    match cl.lastWeekStart with
    | none => m
    | some lastReset =>
      if week_start now > lastReset then
        upd m clan (some
          { cl with
            lastWeekPoints := cl.points
            points := 0
            lastWeekStart := some (week_start now) })
      else m

/-- The value returned by `get_clan_points clan` at time `now`. -/
def rollView (m : String → Option ClanRow) (clan : String) (now : Nat) :
    Option Int :=
  (m clan).map fun cl => (rollRow cl now).points

/-- The accept/reject bit of `can_add_to_clan`, as a pure function of the
`clans` table. -/
def canAddB (m : String → Option ClanRow) (clan : String) (amount : Int)
    (now : Nat) : Bool :=
  match (rollClans m clan now) clan with
  | none => false
  | some cl =>
    match rollView m clan now with
    | none => false
    | some cur => decide (cur + amount ≤ cl.maxPoints)

/-- The state effect of `check_daily_limit`: the UTC-day reset of the
tracker entry, applied whether or not the check passes. -/
def resetDaily (st : DB) (uid : Nat) (now : Nat) : DB :=
  if st.dailyDate uid = some (dayIndex now) then st
  else { st with
          dailyDate := upd st.dailyDate uid (some (dayIndex now))
          dailyPoints := upd st.dailyPoints uid 0 }

/-- The state produced by a successful `add_points_to_clan_and_user` run,
given the clan (post-rollover) points `cur` and row `cl`. -/
def successState (st : DB) (uid : Nat) (clan : String) (amount : Int)
    (src : String) (channelId : Option Nat) (now : Nat) (cur : Int)
    (cl : ClanRow) : DB :=
  let stD := resetDaily { st with clans := rollClans st.clans clan now } uid now
  let st4 := { stD with clans := upd (rollClans stD.clans clan now) clan (some
    { cl with points := cur + amount }) }
  let st5 :=
    match st4.users uid with
    | some u => { st4 with users := upd st4.users uid (some
        { u with points := u.points + amount, lastActive := some now }) }
    | none => { st4 with users := upd st4.users uid (some
        (UserRow.mk (some clan) amount (some now) (some now))) }
  let st6 := { st5 with logs := st5.logs ++ [LogEntry.mk uid amount src now channelId] }
  let st7 := { st6 with
    dailyDate := upd st6.dailyDate uid (some (dayIndex now))
    dailyPoints := upd st6.dailyPoints uid (st6.dailyPoints uid + amount) }
  (check_achievements st7 uid).2

/-- Sum of the logged amounts attributed to `uid` in a list of log rows. -/
def logSumL (l : List LogEntry) (uid : Nat) : Int :=
  ((l.filter fun e => e.userId == uid).map LogEntry.amount).sum

/-- Stored lifetime points of a user (`0` when no row exists). -/
def userPoints (st : DB) (uid : Nat) : Int :=
  ((st.users uid).map UserRow.points).getD 0

/-- The ledger-sum reconciliation invariant of the spec: every user
logged amounts sum to their stored lifetime points. -/
def ledgerInv (st : DB) : Prop :=
  ∀ uid, logSumL st.logs uid = userPoints st uid

/-- The state produced by a successful `removepoints` run. -/
def removeSuccess (st : DB) (uid : Nat) (clan : String) (amount : Int)
    (channelId : Option Nat) (now : Nat) (u : UserRow) (cl : ClanRow)
    (cur : Int) : DB :=
  let st1 := { st with users := upd st.users uid (some
    { u with points := u.points - amount }) }
  let st2 := { st1 with clans := rollClans st1.clans clan now }
  let st3 := { st2 with clans := upd st2.clans clan (some
    { cl with points := max 0 (cur - amount) }) }
  { st3 with logs := st3.logs ++ [LogEntry.mk uid (-amount) "admin_removal" now channelId] }

/-- The point-mutating operations of the bot, as named by the spec
reconciliation invariant: message-activity award, admin addition
(`!addpoints`), admin removal (`!removepoints`), shop purchase
(`!purchase`). -/
inductive Op where
  | activity (uid : Nat) (clan : String) (amount : Int) (channelId : Option Nat) (now : Nat)
  | adminAdd (uid : Nat) (clan : String) (amount : Int) (channelId : Option Nat) (now : Nat)
  | adminRemove (uid : Nat) (clan : String) (amount : Int) (channelId : Option Nat) (now : Nat)
  | shopPurchase (uid : Nat) (item : String)
  deriving Repr, DecidableEq

/-- State transition of one operation (the state component of the
corresponding source function). -/
def Op.step (st : DB) : Op → DB
  | .activity uid clan amount channelId now =>
      (add_points_to_clan_and_user st uid clan amount "message" channelId now).2
  | .adminAdd uid clan amount channelId now =>
      (addpoints st uid clan amount channelId now).2
  | .adminRemove uid clan amount channelId now =>
      (removepoints st uid clan amount channelId now).2
  | .shopPurchase uid item => (purchase st uid item).2

def Op.isShopPurchase : Op → Bool
  | .shopPurchase _ _ => true
  | _ => false

def runOps (st : DB) (ops : List Op) : DB := ops.foldl Op.step st

/-- The data-model invariant of a clan row reachable through configuration:
points within the cap, and a non-negative cap (`setweeklycap` only accepts
caps in [100, 20000] and the column default is 20000). -/
def clanOK (m : String → Option ClanRow) (clan : String) : Prop :=
  ∀ cl, m clan = some cl → cl.points ≤ cl.maxPoints ∧ 0 ≤ cl.maxPoints

/-- Arguments of one `add_points_to_clan_and_user` call against a fixed
clan. -/
structure AwardCall where
  uid : Nat
  amount : Int
  src : String
  channelId : Option Nat
  now : Nat

/-- A sequence of award calls against one clan. -/
def runAwards (st : DB) (clan : String) (calls : List AwardCall) : DB :=
  calls.foldl
    (fun s a => (add_points_to_clan_and_user s a.uid clan a.amount a.src a.channelId a.now).2)
    st

/-- A fresh clan with default cap. -/
def clanA : ClanRow := { points := 0, lastWeekStart := none, lastWeekPoints := 0, maxPoints := 20000 }

/-- A clan stuck at week start 0 with 1200 points. -/
def clanStale : ClanRow := { points := 1200, lastWeekStart := some 0, lastWeekPoints := 0, maxPoints := 20000 }

/-- Clan `"A"` exists; user 1 already has 300 daily points on day 0. -/
def stDaily : DB :=
  { initDB with
    clans := upd initDB.clans "A" (some clanA)
    dailyDate := upd initDB.dailyDate 1 (some 0)
    dailyPoints := upd initDB.dailyPoints 1 300 }

/-- Clan `"A"` exists and the shop sells `"Sword"` for 3 points. -/
def stShop : DB :=
  { initDB with
    clans := upd initDB.clans "A" (some clanA)
    shop := upd initDB.shop "Sword" (some 3) }

/-- User 1 has 150 lifetime points. -/
def stAch : DB :=
  { initDB with users := upd initDB.users 1 (some (UserRow.mk (some "A") 150 none none)) }

/-- Clan `"B"` holds stale points from week 0. -/
def stStale : DB := { initDB with clans := upd initDB.clans "B" (some clanStale) }

/-- Clan `"A"` exists (channel multiplier scenario). -/
def stChan : DB := { initDB with clans := upd initDB.clans "A" (some clanA) }

/-- The milestone names a user with row `u` qualifies for. -/
def achNames (u : UserRow) : List String :=
  (milestones.filter (fun m : Nat => decide ((m : Int) ≤ u.points))).map achievementName

/-! ## Lemmas and claim theorems -/

theorem upd_same {α β : Type} [DecidableEq α] (f : α → β) (k : α) (v : β) :
    upd f k v k = v := by simp [upd]

theorem upd_other {α β : Type} [DecidableEq α] (f : α → β) (k : α) (v : β)
    (x : α) (h : x ≠ k) : upd f k v x = f x := by simp [upd, h]

theorem get_clan_points_eq (st : DB) (clan : String) (now : Nat) :
    get_clan_points st clan now =
      (rollView st.clans clan now, { st with clans := rollClans st.clans clan now }) := by
  unfold get_clan_points rollClans rollView
  cases h : st.clans clan with
  | none => rfl
  | some cl =>
    cases h2 : cl.lastWeekStart with
    | none => simp [rollRow, h2]
    | some lastReset =>
      by_cases h3 : week_start now > lastReset <;> simp [rollRow, h2, h3]

theorem rollRow_maxPoints (cl : ClanRow) (now : Nat) :
    (rollRow cl now).maxPoints = cl.maxPoints := by
  unfold rollRow; cases cl.lastWeekStart <;> simp
  split <;> rfl

theorem rollRow_lastWeekStart_none (cl : ClanRow) (now : Nat)
    (h : cl.lastWeekStart = none) : rollRow cl now = cl := by
  unfold rollRow; rw [h]

theorem rollRow_idem (cl : ClanRow) (now : Nat) :
    rollRow (rollRow cl now) now = rollRow cl now := by
  unfold rollRow
  cases h : cl.lastWeekStart with
  | none => simp [h]
  | some lastReset =>
    by_cases h2 : week_start now > lastReset <;> simp [h, h2]

theorem rollClans_apply_self (m : String → Option ClanRow) (clan : String)
    (now : Nat) :
    (rollClans m clan now) clan = (m clan).map (rollRow · now) := by
  unfold rollClans
  cases h : m clan with
  | none => simp [h]
  | some cl =>
    cases h2 : cl.lastWeekStart with
    | none => simp [h, rollRow, h2]
    | some lastReset =>
      by_cases h3 : week_start now > lastReset <;>
        simp [h, rollRow, h2, h3, upd_same]

theorem rollClans_apply_other (m : String → Option ClanRow) (clan : String)
    (now : Nat) (x : String) (hx : x ≠ clan) :
    (rollClans m clan now) x = m x := by
  unfold rollClans
  cases h : m clan with
  | none => rfl
  | some cl =>
    cases h2 : cl.lastWeekStart with
    | none => simp [h2]
    | some lastReset =>
      by_cases h3 : week_start now > lastReset <;> simp [h2, h3, upd_other, hx]

theorem rollClans_idem (m : String → Option ClanRow) (clan : String)
    (now : Nat) :
    rollClans (rollClans m clan now) clan now = rollClans m clan now := by
  funext x
  by_cases hx : x = clan
  · subst hx
    rw [rollClans_apply_self, rollClans_apply_self]
    cases h : m x with
    | none => simp
    | some cl => simp [rollRow_idem]
  · rw [rollClans_apply_other _ _ _ _ hx, rollClans_apply_other _ _ _ _ hx]

theorem rollView_rollClans (m : String → Option ClanRow) (clan : String)
    (now : Nat) :
    rollView (rollClans m clan now) clan now = rollView m clan now := by
  unfold rollView
  rw [rollClans_apply_self]
  cases h : m clan with
  | none => simp
  | some cl => simp [rollRow_idem]

theorem can_add_to_clan_eq (st : DB) (clan : String) (amount : Int) (now : Nat) :
    can_add_to_clan st clan amount now =
      (canAddB st.clans clan amount now,
       { st with clans := rollClans st.clans clan now }) := by
  unfold can_add_to_clan canAddB
  rw [get_clan_points_eq]
  cases h1 : (rollClans st.clans clan now) clan with
  | none => simp [h1]
  | some cl =>
    cases h2 : rollView st.clans clan now with
    | none => simp [h1, h2]
    | some cur => simp [h1, h2]

theorem check_daily_limit_eq (st : DB) (uid : Nat) (p : Int) (now : Nat) :
    check_daily_limit st uid p now =
      (decide ((resetDaily st uid now).dailyPoints uid + p ≤ MAX_DAILY_POINTS),
       resetDaily st uid now) := by
  unfold check_daily_limit resetDaily
  by_cases h : st.dailyDate uid = some (dayIndex now) <;> simp [h]

theorem resetDaily_clans (st : DB) (uid : Nat) (now : Nat) :
    (resetDaily st uid now).clans = st.clans := by
  unfold resetDaily; split <;> rfl

theorem resetDaily_users (st : DB) (uid : Nat) (now : Nat) :
    (resetDaily st uid now).users = st.users := by
  unfold resetDaily; split <;> rfl

theorem resetDaily_logs (st : DB) (uid : Nat) (now : Nat) :
    (resetDaily st uid now).logs = st.logs := by
  unfold resetDaily; split <;> rfl

theorem resetDaily_achievements (st : DB) (uid : Nat) (now : Nat) :
    (resetDaily st uid now).achievements = st.achievements := by
  unfold resetDaily; split <;> rfl

theorem check_achievements_users (st : DB) (uid : Nat) :
    (check_achievements st uid).2.users = st.users := by
  unfold check_achievements
  cases h : st.users uid <;> simp [h]

theorem check_achievements_logs (st : DB) (uid : Nat) :
    (check_achievements st uid).2.logs = st.logs := by
  unfold check_achievements
  cases h : st.users uid <;> simp [h]

theorem check_achievements_clans (st : DB) (uid : Nat) :
    (check_achievements st uid).2.clans = st.clans := by
  unfold check_achievements
  cases h : st.users uid <;> simp [h]

theorem check_achievements_dailyDate (st : DB) (uid : Nat) :
    (check_achievements st uid).2.dailyDate = st.dailyDate := by
  unfold check_achievements
  cases h : st.users uid <;> simp [h]

theorem check_achievements_dailyPoints (st : DB) (uid : Nat) :
    (check_achievements st uid).2.dailyPoints = st.dailyPoints := by
  unfold check_achievements
  cases h : st.users uid <;> simp [h]

theorem resetDaily_dailyPoints_any (st st' : DB) (uid : Nat) (now : Nat)
    (hdate : st'.dailyDate = st.dailyDate) (hpts : st'.dailyPoints = st.dailyPoints) :
    (resetDaily st' uid now).dailyPoints = (resetDaily st uid now).dailyPoints := by
  unfold resetDaily
  rw [hdate]
  by_cases h : st.dailyDate uid = some (dayIndex now) <;> simp [h, hpts]

theorem canAddB_true_iff (m : String → Option ClanRow) (clan : String)
    (amount : Int) (now : Nat) :
    canAddB m clan amount now = true ↔
      ∃ cl cur, (rollClans m clan now) clan = some cl ∧
        rollView m clan now = some cur ∧ cur + amount ≤ cl.maxPoints := by
  unfold canAddB
  cases h1 : (rollClans m clan now) clan with
  | none => simp [h1]
  | some cl =>
    cases h2 : rollView m clan now with
    | none => simp [h1, h2]
    | some cur => simp [h1, h2]

theorem add_points_shape (st : DB) (uid : Nat) (clan : String) (amount : Int)
    (src : String) (channelId : Option Nat) (now : Nat) :
    (add_points_to_clan_and_user st uid clan amount src channelId now =
        (false, { st with clans := rollClans st.clans clan now }) ∧
      canAddB st.clans clan amount now = false)
    ∨ (add_points_to_clan_and_user st uid clan amount src channelId now =
        (false, resetDaily { st with clans := rollClans st.clans clan now } uid now) ∧
      canAddB st.clans clan amount now = true ∧
      ¬((resetDaily st uid now).dailyPoints uid + amount ≤ MAX_DAILY_POINTS))
    ∨ (∃ cur cl,
        rollView st.clans clan now = some cur ∧
        (rollClans st.clans clan now) clan = some cl ∧
        cur + amount ≤ cl.maxPoints ∧
        ((resetDaily st uid now).dailyPoints uid + amount ≤ MAX_DAILY_POINTS) ∧
        add_points_to_clan_and_user st uid clan amount src channelId now =
          (true, successState st uid clan amount src channelId now cur cl)) := by
  have hdp : (resetDaily { st with clans := rollClans st.clans clan now } uid now).dailyPoints
      = (resetDaily st uid now).dailyPoints :=
    resetDaily_dailyPoints_any st _ uid now rfl rfl
  unfold add_points_to_clan_and_user
  by_cases hd : (resetDaily st uid now).dailyPoints uid + amount ≤ MAX_DAILY_POINTS
  all_goals by_cases hb : canAddB st.clans clan amount now
  · right; right
    obtain ⟨cl, cur, hcl, hcur, hle⟩ := (canAddB_true_iff _ _ _ _).mp hb
    refine ⟨cur, cl, hcur, hcl, hle, hd, ?_⟩
    have hclans : (resetDaily { st with clans := rollClans st.clans clan now } uid now).clans
        = rollClans st.clans clan now := by
      rw [resetDaily_clans]
    have hview : rollView (resetDaily { st with clans := rollClans st.clans clan now } uid now).clans clan now
        = some cur := by
      rw [hclans, rollView_rollClans, hcur]
    have hcl2 : (rollClans (resetDaily { st with clans := rollClans st.clans clan now } uid now).clans clan now) clan
        = some cl := by
      rw [hclans, rollClans_idem, hcl]
    simp [can_add_to_clan_eq, check_daily_limit_eq, get_clan_points_eq, hb, hd, hdp,
      hview, hcl2, successState]
  · left
    simp only [Bool.not_eq_true] at hb
    simp [can_add_to_clan_eq, hb]
  · right; left
    refine ⟨?_, hb, hd⟩
    simp [can_add_to_clan_eq, check_daily_limit_eq, hb, hd, hdp]
  · left
    simp only [Bool.not_eq_true] at hb
    simp [can_add_to_clan_eq, hb]

theorem resetDaily_clans_comm (st : DB) (x : String → Option ClanRow)
    (uid : Nat) (now : Nat) :
    resetDaily { st with clans := x } uid now =
      { resetDaily st uid now with clans := x } := by
  unfold resetDaily
  by_cases h : st.dailyDate uid = some (dayIndex now) <;> simp [h]

theorem successState_clans (st : DB) (uid : Nat) (clan : String) (amount : Int)
    (src : String) (channelId : Option Nat) (now : Nat) (cur : Int) (cl : ClanRow) :
    (successState st uid clan amount src channelId now cur cl).clans =
      upd (rollClans st.clans clan now) clan (some { cl with points := cur + amount }) := by
  unfold successState
  rw [check_achievements_clans]
  cases h : (resetDaily { st with clans := rollClans st.clans clan now } uid now).users uid <;>
    simp [h, resetDaily_clans, rollClans_idem]

theorem successState_users (st : DB) (uid : Nat) (clan : String) (amount : Int)
    (src : String) (channelId : Option Nat) (now : Nat) (cur : Int) (cl : ClanRow) :
    (successState st uid clan amount src channelId now cur cl).users =
      (match st.users uid with
       | some u => upd st.users uid (some
          { u with points := u.points + amount, lastActive := some now })
       | none => upd st.users uid (some
          (UserRow.mk (some clan) amount (some now) (some now)))) := by
  unfold successState
  rw [check_achievements_users]
  have hu : (resetDaily { st with clans := rollClans st.clans clan now } uid now).users
      = st.users := by rw [resetDaily_users]
  cases h : (resetDaily { st with clans := rollClans st.clans clan now } uid now).users uid with
  | none => rw [hu] at h; simp [h, hu]
  | some u => rw [hu] at h; simp [h, hu]

theorem successState_logs (st : DB) (uid : Nat) (clan : String) (amount : Int)
    (src : String) (channelId : Option Nat) (now : Nat) (cur : Int) (cl : ClanRow) :
    (successState st uid clan amount src channelId now cur cl).logs =
      st.logs ++ [LogEntry.mk uid amount src now channelId] := by
  unfold successState
  rw [check_achievements_logs]
  cases h : (resetDaily { st with clans := rollClans st.clans clan now } uid now).users uid <;>
    simp [h, resetDaily_logs]

theorem successState_dailyPoints (st : DB) (uid : Nat) (clan : String) (amount : Int)
    (src : String) (channelId : Option Nat) (now : Nat) (cur : Int) (cl : ClanRow) :
    (successState st uid clan amount src channelId now cur cl).dailyPoints =
      upd (resetDaily st uid now).dailyPoints uid
        ((resetDaily st uid now).dailyPoints uid + amount) := by
  unfold successState
  rw [check_achievements_dailyPoints, resetDaily_clans_comm]
  cases h : ({ resetDaily st uid now with clans := rollClans st.clans clan now } : DB).users uid <;>
    simp [h]

theorem logSumL_append (l1 l2 : List LogEntry) (uid : Nat) :
    logSumL (l1 ++ l2) uid = logSumL l1 uid + logSumL l2 uid := by
  simp [logSumL, List.filter_append]

theorem logSumL_singleton (e : LogEntry) (uid : Nat) :
    logSumL [e] uid = if e.userId = uid then e.amount else 0 := by
  by_cases h : e.userId = uid <;> simp [logSumL, h]

theorem ledgerInv_of_eq (st st' : DB) (hu : st'.users = st.users)
    (hl : st'.logs = st.logs) (h : ledgerInv st) : ledgerInv st' := by
  intro u
  unfold userPoints
  rw [hu, hl]
  exact h u

theorem removepoints_shape (st : DB) (uid : Nat) (clan : String) (amount : Int)
    (channelId : Option Nat) (now : Nat) :
    removepoints st uid clan amount channelId now = (false, st)
    ∨ (∃ u cl cur, st.users uid = some u ∧ 0 < amount ∧ amount ≤ 10000 ∧
        amount ≤ u.points ∧
        rollView st.clans clan now = some cur ∧
        (rollClans st.clans clan now) clan = some cl ∧
        removepoints st uid clan amount channelId now =
          (true, removeSuccess st uid clan amount channelId now u cl cur)) := by
  unfold removepoints
  by_cases h1 : amount ≤ 0
  · left; simp [h1]
  · by_cases h2 : amount > 10000
    · left; simp [h1, h2]
    · cases hu : st.users uid with
      | none => left; simp [h1, h2, hu]
      | some u =>
        by_cases h3 : u.points < amount
        · left; simp [h1, h2, hu, h3]
        · rw [if_neg h1, if_neg h2]
          cases hv : rollView st.clans clan now with
          | none =>
            left
            simp only [hu, if_neg h3]
            rw [get_clan_points_eq]
            simp [hv]
          | some cur =>
            cases hcl : (rollClans st.clans clan now) clan with
            | none =>
              left
              simp only [hu, if_neg h3]
              rw [get_clan_points_eq]
              simp [hv, hcl]
            | some cl =>
              right
              refine ⟨u, cl, cur, rfl, by omega, by omega, by omega, rfl, rfl, ?_⟩
              simp only [hu, if_neg h3]
              rw [get_clan_points_eq]
              simp [hv, hcl, removeSuccess]

theorem removeSuccess_users (st : DB) (uid : Nat) (clan : String) (amount : Int)
    (channelId : Option Nat) (now : Nat) (u : UserRow) (cl : ClanRow) (cur : Int) :
    (removeSuccess st uid clan amount channelId now u cl cur).users =
      upd st.users uid (some { u with points := u.points - amount }) := rfl

theorem removeSuccess_logs (st : DB) (uid : Nat) (clan : String) (amount : Int)
    (channelId : Option Nat) (now : Nat) (u : UserRow) (cl : ClanRow) (cur : Int) :
    (removeSuccess st uid clan amount channelId now u cl cur).logs =
      st.logs ++ [LogEntry.mk uid (-amount) "admin_removal" now channelId] := rfl

theorem ledger_add_points (st : DB) (uid : Nat) (clan : String) (amount : Int)
    (src : String) (channelId : Option Nat) (now : Nat) (h : ledgerInv st) :
    ledgerInv (add_points_to_clan_and_user st uid clan amount src channelId now).2 := by
  rcases add_points_shape st uid clan amount src channelId now with
    ⟨heq, -⟩ | ⟨heq, -, -⟩ | ⟨cur, cl, -, -, -, -, heq⟩
  · rw [heq]
    exact ledgerInv_of_eq st _ rfl rfl h
  · rw [heq]
    exact ledgerInv_of_eq st _ (by rw [resetDaily_users]) (by rw [resetDaily_logs]) h
  · rw [heq]
    intro v
    unfold userPoints
    rw [show ((true, successState st uid clan amount src channelId now cur cl).2) =
      successState st uid clan amount src channelId now cur cl from rfl,
      successState_logs, successState_users, logSumL_append, logSumL_singleton]
    by_cases hv : uid = v
    · subst hv
      cases hrow : st.users uid with
      | none =>
        have h0 := h uid
        unfold userPoints at h0
        rw [hrow] at h0
        simp only [hrow, upd_same, if_pos rfl]
        simp at h0
        simp [h0]
      | some u0 =>
        have h0 := h uid
        unfold userPoints at h0
        rw [hrow] at h0
        simp only [hrow, upd_same, if_pos rfl]
        simp at h0
        simp [h0]
    · have hne : v ≠ uid := fun hx => hv hx.symm
      cases hrow : st.users uid with
      | none =>
        simp only [hrow, if_neg hv, upd_other _ _ _ _ hne, add_zero]
        exact h v
      | some u0 =>
        simp only [hrow, if_neg hv, upd_other _ _ _ _ hne, add_zero]
        exact h v

theorem ledger_removepoints (st : DB) (uid : Nat) (clan : String) (amount : Int)
    (channelId : Option Nat) (now : Nat) (h : ledgerInv st) :
    ledgerInv (removepoints st uid clan amount channelId now).2 := by
  rcases removepoints_shape st uid clan amount channelId now with
    heq | ⟨u, cl, cur, hu, -, -, -, -, -, heq⟩
  · rw [heq]; exact h
  · rw [heq]
    intro v
    unfold userPoints
    rw [show ((true, removeSuccess st uid clan amount channelId now u cl cur).2) =
      removeSuccess st uid clan amount channelId now u cl cur from rfl,
      removeSuccess_logs, removeSuccess_users, logSumL_append, logSumL_singleton]
    by_cases hv : uid = v
    · subst hv
      have h0 := h uid
      unfold userPoints at h0
      rw [hu] at h0
      simp only [upd_same, if_pos rfl]
      simp at h0
      simp [h0]
      omega
    · have hne : v ≠ uid := fun hx => hv hx.symm
      simp only [if_neg hv, upd_other _ _ _ _ hne, add_zero]
      exact h v

theorem ledger_addpoints (st : DB) (uid : Nat) (clan : String) (amount : Int)
    (channelId : Option Nat) (now : Nat) (h : ledgerInv st) :
    ledgerInv (addpoints st uid clan amount channelId now).2 := by
  unfold addpoints
  by_cases h1 : amount ≤ 0
  · simpa [h1] using h
  · by_cases h2 : amount > 10000
    · simpa [h1, h2] using h
    · rw [if_neg h1, if_neg h2, can_add_to_clan_eq]
      by_cases hb : canAddB st.clans clan amount now
      · simp only [hb, Bool.not_true, Bool.false_eq_true, if_false]
        exact ledger_add_points _ _ _ _ _ _ _ (ledgerInv_of_eq st _ rfl rfl h)
      · simp only [Bool.not_eq_true] at hb
        simp only [hb, Bool.not_false, if_true]
        exact ledgerInv_of_eq st _ rfl rfl h

theorem ledger_step (st : DB) (op : Op) (hop : op.isShopPurchase = false)
    (h : ledgerInv st) : ledgerInv (Op.step st op) := by
  cases op with
  | activity uid clan amount channelId now => exact ledger_add_points _ _ _ _ _ _ _ h
  | adminAdd uid clan amount channelId now => exact ledger_addpoints _ _ _ _ _ _ h
  | adminRemove uid clan amount channelId now => exact ledger_removepoints _ _ _ _ _ _ h
  | shopPurchase uid item => simp [Op.isShopPurchase] at hop

theorem rollRow_points_cases (cl : ClanRow) (now : Nat) :
    (rollRow cl now).points = cl.points ∨ (rollRow cl now).points = 0 := by
  unfold rollRow
  cases h : cl.lastWeekStart with
  | none => left; rfl
  | some lastReset =>
    by_cases h2 : week_start now > lastReset
    · right; simp [h2]
    · left; simp [h2]

theorem clanOK_rollClans_self (m : String → Option ClanRow) (clan : String)
    (now : Nat) (h : clanOK m clan) : clanOK (rollClans m clan now) clan := by
  intro cl hcl
  rw [rollClans_apply_self] at hcl
  cases hm : m clan with
  | none => rw [hm] at hcl; simp at hcl
  | some cl0 =>
    rw [hm] at hcl
    simp at hcl
    obtain ⟨h1, h2⟩ := h cl0 hm
    rcases rollRow_points_cases cl0 now with hp | hp <;>
      rw [← hcl] <;> rw [rollRow_maxPoints] <;> constructor <;> omega

theorem cap_add_points (st : DB) (uid : Nat) (clan : String) (amount : Int)
    (src : String) (channelId : Option Nat) (now : Nat)
    (h : clanOK st.clans clan) :
    clanOK (add_points_to_clan_and_user st uid clan amount src channelId now).2.clans clan := by
  rcases add_points_shape st uid clan amount src channelId now with
    ⟨heq, -⟩ | ⟨heq, -, -⟩ | ⟨cur, cl, hcur, hcl, hle, -, heq⟩
  · rw [heq]
    exact clanOK_rollClans_self _ _ _ h
  · rw [heq]
    have : ((false, resetDaily { st with clans := rollClans st.clans clan now } uid now).2).clans
        = rollClans st.clans clan now := by rw [resetDaily_clans]
    rw [this]
    exact clanOK_rollClans_self _ _ _ h
  · rw [heq]
    rw [show ((true, successState st uid clan amount src channelId now cur cl).2) =
      successState st uid clan amount src channelId now cur cl from rfl, successState_clans]
    intro cl' hcl'
    rw [upd_same] at hcl'
    have hmax : 0 ≤ cl.maxPoints := by
      rw [rollClans_apply_self] at hcl
      cases hm : st.clans clan with
      | none => rw [hm] at hcl; simp at hcl
      | some cl0 =>
        rw [hm] at hcl
        simp at hcl
        obtain ⟨-, h2⟩ := h cl0 hm
        rw [← hcl, rollRow_maxPoints]
        exact h2
    cases hcl'
    constructor
    · simpa using hle
    · simpa using hmax

theorem cap_runAwards (st : DB) (clan : String) (calls : List AwardCall)
    (h : clanOK st.clans clan) : clanOK (runAwards st clan calls).clans clan := by
  induction calls generalizing st with
  | nil => exact h
  | cons a rest ih =>
    exact ih _ (cap_add_points st a.uid clan a.amount a.src a.channelId a.now h)

theorem canAddB_rollClans (m : String → Option ClanRow) (clan : String)
    (amount : Int) (now : Nat) :
    canAddB (rollClans m clan now) clan amount now = canAddB m clan amount now := by
  unfold canAddB
  rw [rollClans_idem, rollView_rollClans]

theorem resetDaily_dailyPoints_clans (st : DB) (x : String → Option ClanRow)
    (uid : Nat) (now : Nat) :
    (resetDaily { st with clans := x } uid now).dailyPoints =
      (resetDaily st uid now).dailyPoints := by
  rw [resetDaily_clans_comm]

theorem addpoints_success_iff (st : DB) (uid : Nat) (clan : String)
    (amount : Int) (channelId : Option Nat) (now : Nat)
    (h1 : 0 < amount) (h2 : amount ≤ 10000) :
    (addpoints st uid clan amount channelId now).1 = true ↔
      (canAddB st.clans clan amount now = true ∧
        (resetDaily st uid now).dailyPoints uid + amount ≤ MAX_DAILY_POINTS) := by
  unfold addpoints
  rw [if_neg (by omega : ¬amount ≤ 0), if_neg (by omega : ¬amount > 10000),
    can_add_to_clan_eq]
  by_cases hb : canAddB st.clans clan amount now
  · simp only [hb, Bool.not_true, Bool.false_eq_true, if_false, true_and]
    rcases add_points_shape { st with clans := rollClans st.clans clan now }
        uid clan amount "admin" channelId now with
      ⟨heq, hb2⟩ | ⟨heq, -, hd⟩ | ⟨cur, cl, -, -, -, hd, heq⟩
    · rw [show ({ st with clans := rollClans st.clans clan now } : DB).clans
          = rollClans st.clans clan now from rfl, canAddB_rollClans] at hb2
      rw [hb2] at hb
      exact absurd hb (by simp)
    · rw [heq]
      rw [show (resetDaily { st with clans := rollClans st.clans clan now } uid now).dailyPoints
          = (resetDaily st uid now).dailyPoints from resetDaily_dailyPoints_clans st _ uid now] at hd
      simp [hd]
    · rw [heq]
      rw [show (resetDaily { st with clans := rollClans st.clans clan now } uid now).dailyPoints
          = (resetDaily st uid now).dailyPoints from resetDaily_dailyPoints_clans st _ uid now] at hd
      simp [hd]
  · simp only [Bool.not_eq_true] at hb
    simp [hb]

theorem mem_insertAchievement_self (l : List (Nat × String)) (e : Nat × String) :
    e ∈ insertAchievement l e := by
  unfold insertAchievement
  split
  · assumption
  · simp

theorem mem_insertAchievement_of_mem (l : List (Nat × String))
    (e e' : Nat × String) (h : e ∈ l) : e ∈ insertAchievement l e' := by
  unfold insertAchievement
  split
  · exact h
  · simp [h]

theorem insertAchievement_eq_of_mem (l : List (Nat × String))
    (e : Nat × String) (h : e ∈ l) : insertAchievement l e = l := by
  unfold insertAchievement
  rw [if_pos h]

theorem insertAchievement_nodup (l : List (Nat × String)) (e : Nat × String)
    (h : l.Nodup) : (insertAchievement l e).Nodup := by
  unfold insertAchievement
  split
  · exact h
  · next hne => simp [List.nodup_append, h, hne]

theorem achFold_mem_of_mem (uid : Nat) (names : List String)
    (acc : List (Nat × String)) (e : Nat × String) (h : e ∈ acc) :
    e ∈ names.foldl (fun a n => insertAchievement a (uid, n)) acc := by
  induction names generalizing acc with
  | nil => exact h
  | cons n rest ih => exact ih _ (mem_insertAchievement_of_mem _ _ _ h)

theorem achFold_mem (uid : Nat) (names : List String)
    (acc : List (Nat × String)) (n : String) (h : n ∈ names) :
    (uid, n) ∈ names.foldl (fun a x => insertAchievement a (uid, x)) acc := by
  induction names generalizing acc with
  | nil => simp at h
  | cons m rest ih =>
    rcases List.mem_cons.mp h with rfl | hrest
    · rw [List.foldl_cons]
      exact achFold_mem_of_mem _ _ _ _ (mem_insertAchievement_self _ _)
    · rw [List.foldl_cons]
      exact ih _ hrest

theorem achFold_idem (uid : Nat) (names : List String)
    (acc : List (Nat × String)) (h : ∀ n ∈ names, (uid, n) ∈ acc) :
    names.foldl (fun a x => insertAchievement a (uid, x)) acc = acc := by
  induction names with
  | nil => rfl
  | cons m rest ih =>
    have hm : (uid, m) ∈ acc := h m (by simp)
    show rest.foldl _ (insertAchievement acc (uid, m)) = acc
    rw [insertAchievement_eq_of_mem _ _ hm]
    exact ih fun n hn => h n (by simp [hn])

theorem achFold_nodup (uid : Nat) (names : List String)
    (acc : List (Nat × String)) (h : acc.Nodup) :
    (names.foldl (fun a x => insertAchievement a (uid, x)) acc).Nodup := by
  induction names generalizing acc with
  | nil => exact h
  | cons m rest ih => exact ih _ (insertAchievement_nodup _ _ h)

/-- C1, counterexample: at the Saturday timestamp 432000 (day five of the
epoch week) a bonus-role member 60-character message awards 8 points,
not the 9 the claim states: Python `int(5 * 1.5)` truncates 7.5 to 7
before the +1 length bonus. -/
theorem C1_counterexample :
    isWeekend 432000 = true ∧ message_amount true 432000 60 = 8 ∧
      message_amount true 432000 60 ≠ 9 := by
  refine ⟨by decide, by decide, by decide⟩

/-- C1, amended: for a bonus-role member (base 5) on a weekend timestamp
with a message longer than 50 characters, the awarded amount is 8: the
weekend multiplier computes `int(5 * 1.5) = 7` (truncation toward zero,
not round half up), then the length bonus adds 1. -/
theorem C1_weekend_award (t : Nat) (len : Nat) (ht : 5 ≤ weekday t)
    (hlen : 50 < len) : message_amount true t len = 8 := by
  unfold message_amount isWeekend
  simp [ht, hlen]

theorem C1_witness :
    5 ≤ weekday 432000 ∧ 50 < 60 ∧ message_amount true 432000 60 = 8 :=
  ⟨by decide, by decide, C1_weekend_award 432000 60 (by decide) (by decide)⟩

/-- C2, counterexample: starting from a store with clan `"A"` and a 3-point
shop item, a message award of 10 followed by a purchase leaves user 1 with
logged sum 10 but stored points 7 — `purchase` deducts points without
writing a log row, so the ledger-sum invariant fails after a shop
purchase. -/
theorem C2_counterexample :
    logSumL (runOps stShop [Op.activity 1 "A" 10 none 0, Op.shopPurchase 1 "Sword"]).logs 1 = 10 ∧
    userPoints (runOps stShop [Op.activity 1 "A" 10 none 0, Op.shopPurchase 1 "Sword"]) 1 = 7 ∧
    ¬ ledgerInv (runOps stShop [Op.activity 1 "A" 10 none 0, Op.shopPurchase 1 "Sword"]) :=
  ⟨by decide, by decide, fun h => absurd (h 1) (by decide)⟩

/-- C2, amended: for every user, the sum of logged amounts equals the
stored lifetime points after every sequence of activity awards, admin
additions and admin removals — shop purchases excluded, since `purchase`
mutates points without logging. -/
theorem C2_ledger_invariant (st : DB) (ops : List Op) (h0 : ledgerInv st)
    (hops : ∀ op ∈ ops, op.isShopPurchase = false) :
    ledgerInv (runOps st ops) := by
  induction ops generalizing st with
  | nil => exact h0
  | cons op rest ih =>
    exact ih _ (ledger_step st op (hops op (by simp)) h0)
      (fun o ho => hops o (by simp [ho]))

theorem C2_witness :
    ledgerInv stShop ∧
    (∀ op ∈ [Op.activity 1 "A" 10 none 0, Op.adminRemove 1 "A" 4 none 0],
      op.isShopPurchase = false) ∧
    ledgerInv (runOps stShop [Op.activity 1 "A" 10 none 0, Op.adminRemove 1 "A" 4 none 0]) :=
  ⟨fun _ => rfl, by decide,
    C2_ledger_invariant stShop _ (fun _ => rfl) (by decide)⟩

theorem check_achievements_of_none (st : DB) (uid : Nat)
    (h : st.users uid = none) : check_achievements st uid = ([], st) := by
  unfold check_achievements
  simp [h]

theorem check_achievements_of_some (st : DB) (uid : Nat) (u : UserRow)
    (h : st.users uid = some u) :
    check_achievements st uid =
      (achNames u,
       { st with achievements :=
          (achNames u).foldl (fun acc n => insertAchievement acc (uid, n)) st.achievements }) := by
  unfold check_achievements achNames
  simp [h]

/-- C3, counterexample: user 1 holds 150 lifetime points; the second of two
back-to-back evaluator calls returns `["Reached 100 Points"]`, not the
empty list — `check_achievements` reports every milestone at or below the
user points on every call, not only newly inserted ones. -/
theorem C3_counterexample :
    (check_achievements (check_achievements stAch 1).2 1).1 = ["Reached 100 Points"] ∧
    (check_achievements (check_achievements stAch 1).2 1).1 ≠ ([] : List String) :=
  ⟨by decide, by decide⟩

/-- C3, amended: with no intervening point change, a second evaluator call
returns the same (generally non-empty) list of all qualified milestone
names and leaves the state unchanged, and the `INSERT OR IGNORE` under the
`(user_id, achievement_name)` primary key never creates a duplicate
record. -/
theorem C3_achievements_idempotent (st : DB) (uid : Nat)
    (hnd : st.achievements.Nodup) :
    (check_achievements (check_achievements st uid).2 uid).1 =
      (check_achievements st uid).1 ∧
    (check_achievements (check_achievements st uid).2 uid).2 =
      (check_achievements st uid).2 ∧
    (check_achievements st uid).2.achievements.Nodup := by
  cases h : st.users uid with
  | none =>
    rw [check_achievements_of_none st uid h]
    rw [check_achievements_of_none st uid h]
    exact ⟨rfl, rfl, hnd⟩
  | some u =>
    rw [check_achievements_of_some st uid u h]
    have h2 : ({ st with achievements :=
        (achNames u).foldl (fun acc n => insertAchievement acc (uid, n)) st.achievements } : DB).users uid
        = some u := h
    rw [check_achievements_of_some _ uid u h2]
    have hall : ∀ n ∈ achNames u,
        (uid, n) ∈ (achNames u).foldl (fun acc x => insertAchievement acc (uid, x)) st.achievements :=
      fun n hn => achFold_mem uid (achNames u) st.achievements n hn
    have hidem := achFold_idem uid (achNames u) _ hall
    refine ⟨rfl, ?_, ?_⟩
    · rw [hidem]
    · exact achFold_nodup uid (achNames u) st.achievements hnd

theorem C3_witness :
    stAch.achievements.Nodup ∧
    (check_achievements (check_achievements stAch 1).2 1).2 =
      (check_achievements stAch 1).2 ∧
    (check_achievements stAch 1).2.achievements.Nodup :=
  ⟨by decide, (C3_achievements_idempotent stAch 1 (by decide)).2.1,
    (C3_achievements_idempotent stAch 1 (by decide)).2.2⟩

/-- C4, counterexample: clan `"A"` is empty (cap 20000, so the clan cap
permits), yet an admin addition of 300 to user 1 — who already has 300
daily points on the current UTC day — fails: `addpoints` delegates to
`add_points_to_clan_and_user`, which enforces `check_daily_limit` for
admin additions too. -/
theorem C4_counterexample :
    stDaily.dailyPoints 1 = 300 ∧
    (can_add_to_clan stDaily "A" 300 0).1 = true ∧
    (addpoints stDaily 1 "A" 300 none 0).1 = false :=
  ⟨by decide, by decide, by decide⟩

/-- C4, amended: the admin point-addition command skips the rate limiter
(which only `on_message` consults) but not the daily budget: for a valid
amount it succeeds exactly when the clan-cap gate accepts and the user
points awarded today (after the UTC-day reset) plus the amount stay within
`MAX_DAILY_POINTS`. -/
theorem C4_admin_addition_daily_gated (st : DB) (uid : Nat) (clan : String)
    (amount : Int) (channelId : Option Nat) (now : Nat)
    (h1 : 0 < amount) (h2 : amount ≤ 10000) :
    (addpoints st uid clan amount channelId now).1 = true ↔
      (canAddB st.clans clan amount now = true ∧
        (resetDaily st uid now).dailyPoints uid + amount ≤ MAX_DAILY_POINTS) :=
  addpoints_success_iff st uid clan amount channelId now h1 h2

theorem C4_witness :
    0 < (200 : Int) ∧ (200 : Int) ≤ 10000 ∧
    ((addpoints stDaily 1 "A" 200 none 0).1 = true ↔
      (canAddB stDaily.clans "A" 200 0 = true ∧
        (resetDaily stDaily 1 0).dailyPoints 1 + 200 ≤ MAX_DAILY_POINTS)) :=
  ⟨by decide, by decide,
    C4_admin_addition_daily_gated stDaily 1 "A" 200 none 0 (by decide) (by decide)⟩

/-- C5: when the stored `last_week_start` is non-empty and strictly earlier
than the current week Monday 00:00 UTC, the first read archives the
current points to `last_week_points`, zeroes the points, advances
`last_week_start` to `week_start now`, and returns 0; an immediately
repeated read changes nothing and returns the stored points. -/
theorem C5_weekly_rollover (st : DB) (clan : String) (cl : ClanRow)
    (lw : Nat) (now : Nat) (hc : st.clans clan = some cl)
    (hlws : cl.lastWeekStart = some lw) (hlt : lw < week_start now) :
    get_clan_points st clan now =
      (some 0, { st with clans := upd st.clans clan (some
        { cl with
          points := 0
          lastWeekPoints := cl.points
          lastWeekStart := some (week_start now) }) }) ∧
    get_clan_points (get_clan_points st clan now).2 clan now =
      (some 0, (get_clan_points st clan now).2) := by
  have h1 : get_clan_points st clan now =
      (some 0, { st with clans := upd st.clans clan (some
        { cl with
          points := 0
          lastWeekPoints := cl.points
          lastWeekStart := some (week_start now) }) }) := by
    unfold get_clan_points
    simp [hc, hlws, hlt]
  refine ⟨h1, ?_⟩
  rw [h1]
  unfold get_clan_points
  simp [upd_same, lt_irrefl]

theorem C5_witness :
    stStale.clans "B" = some clanStale ∧
    clanStale.lastWeekStart = some 0 ∧
    0 < week_start 1817200 ∧
    get_clan_points stStale "B" 1817200 =
      (some 0, { stStale with clans := upd stStale.clans "B" (some
        { clanStale with
          points := 0
          lastWeekPoints := clanStale.points
          lastWeekStart := some (week_start 1817200) }) }) ∧
    get_clan_points (get_clan_points stStale "B" 1817200).2 "B" 1817200 =
      (some 0, (get_clan_points stStale "B" 1817200).2) :=
  ⟨by decide, by decide, by decide,
    (C5_weekly_rollover stStale "B" clanStale 0 1817200 (by decide) (by decide) (by decide)).1,
    (C5_weekly_rollover stStale "B" clanStale 0 1817200 (by decide) (by decide) (by decide)).2⟩

/-- C6: a clan whose row satisfies the data-model invariant (points within
the cap, non-negative cap) keeps its stored points at or below its
configured `max_points` across every sequence of award calls — rollovers
reset to 0 and successful awards are gated by `can_add_to_clan`. -/
theorem C6_clan_cap_invariant (st : DB) (clan : String)
    (calls : List AwardCall) (h : clanOK st.clans clan) :
    ∀ cl, (runAwards st clan calls).clans clan = some cl →
      cl.points ≤ cl.maxPoints :=
  fun cl hcl => (cap_runAwards st clan calls h cl hcl).1

theorem C6_witness :
    clanOK stChan.clans "A" ∧
    (∀ cl, (runAwards stChan "A"
        [AwardCall.mk 1 10 "message" none 0, AwardCall.mk 2 19990 "message" none 0,
         AwardCall.mk 3 5 "message" none 0]).clans "A" = some cl →
      cl.points ≤ cl.maxPoints) := by
  have hok : clanOK stChan.clans "A" := by
    intro cl hcl
    rw [show stChan.clans "A" = some clanA from by decide] at hcl
    cases hcl
    decide
  exact ⟨hok, C6_clan_cap_invariant stChan "A" _ hok⟩

/-- C7: with the 500-point daily cap, a user already at 300 points for the
current UTC day is refused a further 300-point activity award with no state
change, while a 200-point award is accepted (300 + 200 = 500, inclusive
comparison), and in general the daily gate accepts exactly when points
awarded today plus the new amount is at most 500. -/
theorem C7_daily_budget_boundary (st : DB) (uid : Nat) (clan : String)
    (cl : ClanRow) (channelId : Option Nat) (now : Nat)
    (hdate : st.dailyDate uid = some (dayIndex now))
    (hpts : st.dailyPoints uid = 300)
    (hc : st.clans clan = some cl)
    (hlws : cl.lastWeekStart = none)
    (hcap1 : cl.points + 300 ≤ cl.maxPoints)
    (hcap2 : cl.points + 200 ≤ cl.maxPoints) :
    (∀ a : Int, ((check_daily_limit st uid a now).1 = true ↔ 300 + a ≤ 500)) ∧
    add_points_to_clan_and_user st uid clan 300 "message" channelId now = (false, st) ∧
    (add_points_to_clan_and_user st uid clan 200 "message" channelId now).1 = true ∧
    (add_points_to_clan_and_user st uid clan 200 "message" channelId now).2.dailyPoints uid = 500 := by
  have hreset : resetDaily st uid now = st := by
    unfold resetDaily
    rw [if_pos hdate]
  have hroll : rollClans st.clans clan now = st.clans := by
    unfold rollClans
    simp [hc, hlws]
  have hview : rollView st.clans clan now = some cl.points := by
    unfold rollView
    rw [hc]
    simp [rollRow_lastWeekStart_none cl now hlws]
  have hcan : ∀ a : Int, canAddB st.clans clan a now = decide (cl.points + a ≤ cl.maxPoints) := by
    intro a
    unfold canAddB
    rw [hroll]
    simp [hc, hview]
  have ha : ∀ a : Int, ((check_daily_limit st uid a now).1 = true ↔ 300 + a ≤ 500) := by
    intro a
    rw [check_daily_limit_eq]
    simp [hreset, hpts, MAX_DAILY_POINTS]
  have hb300 : add_points_to_clan_and_user st uid clan 300 "message" channelId now = (false, st) := by
    rcases add_points_shape st uid clan 300 "message" channelId now with
      ⟨-, hbf⟩ | ⟨heq, -, -⟩ | ⟨cur, cl', -, -, -, hd, -⟩
    · rw [hcan 300] at hbf
      simp [hcap1] at hbf
    · rw [heq]
      have hst : ({ st with clans := rollClans st.clans clan now } : DB) = st := by
        rw [hroll]
      rw [hst, hreset]
    · rw [hreset] at hd
      rw [hpts] at hd
      exact absurd hd (by decide)
  rcases add_points_shape st uid clan 200 "message" channelId now with
    ⟨-, hbf⟩ | ⟨-, -, hd⟩ | ⟨cur, cl', hcur, hcl', hle, hd, heq⟩
  · rw [hcan 200] at hbf
    simp [hcap2] at hbf
  · rw [hreset] at hd
    rw [hpts] at hd
    exact absurd (by decide : (300 : Int) + 200 ≤ MAX_DAILY_POINTS) hd
  · refine ⟨ha, hb300, ?_, ?_⟩
    · rw [heq]
    · rw [heq]
      rw [show ((true, successState st uid clan 200 "message" channelId now cur cl').2)
          = successState st uid clan 200 "message" channelId now cur cl' from rfl,
        successState_dailyPoints, hreset, upd_same, hpts]
      decide

theorem C7_witness :
    stDaily.dailyDate 1 = some (dayIndex 0) ∧
    stDaily.dailyPoints 1 = 300 ∧
    stDaily.clans "A" = some clanA ∧
    clanA.lastWeekStart = none ∧
    clanA.points + 300 ≤ clanA.maxPoints ∧
    clanA.points + 200 ≤ clanA.maxPoints ∧
    (add_points_to_clan_and_user stDaily 1 "A" 300 "message" none 0 = (false, stDaily) ∧
      (add_points_to_clan_and_user stDaily 1 "A" 200 "message" none 0).1 = true ∧
      (add_points_to_clan_and_user stDaily 1 "A" 200 "message" none 0).2.dailyPoints 1 = 500) :=
  ⟨by decide, by decide, by decide, by decide, by decide, by decide,
    (C7_daily_budget_boundary stDaily 1 "A" clanA none 0 (by decide) (by decide)
      (by decide) (by decide) (by decide) (by decide)).2.1,
    (C7_daily_budget_boundary stDaily 1 "A" clanA none 0 (by decide) (by decide)
      (by decide) (by decide) (by decide) (by decide)).2.2.1,
    (C7_daily_budget_boundary stDaily 1 "A" clanA none 0 (by decide) (by decide)
      (by decide) (by decide) (by decide) (by decide)).2.2.2⟩

/-- C8: the claim fails on the code — `setchannelmultiplier` stores a 2×
multiplier for channel 99, yet a weekday message award of base 1 in that
channel grants exactly 1 point: no award path reads `channel_multipliers`
or `seasonal_events`, while the spec step-2 computation (channel
multiplier applied, round half up) yields 2. -/
theorem C8_channel_multiplier_not_applied :
    setchannelmultiplier stChan 99 2 =
      (true, { stChan with channelMultipliers := upd stChan.channelMultipliers 99 (some 2) }) ∧
    message_amount false 0 10 = 1 ∧
    userPoints (add_points_to_clan_and_user
      { stChan with channelMultipliers := upd stChan.channelMultipliers 99 (some 2) } 1 "A"
      (message_amount false 0 10) "message" (some 99) 0).2 1 = 1 ∧
    specFinalAmount 1 ((upd stChan.channelMultipliers 99 (some 2)) 99) none = 2 := by
  refine ⟨?_, by decide, by decide, ?_⟩
  · rw [setchannelmultiplier, if_neg (by norm_num)]
  · rw [upd_same, specFinalAmount]
    norm_num [Int.floor_eq_iff]

/-- C9: an admin removal whose amount exceeds the user stored points is
rejected before any write — the state is returned untouched — and a user
stored points never become negative through `removepoints`. -/
theorem C9_admin_removal_guard (st : DB) (uid : Nat) (clan : String)
    (amount : Int) (channelId : Option Nat) (now : Nat) (u : UserRow)
    (hu : st.users uid = some u) :
    (u.points < amount → removepoints st uid clan amount channelId now = (false, st)) ∧
    (0 ≤ u.points → ∀ u', (removepoints st uid clan amount channelId now).2.users uid = some u' →
      0 ≤ u'.points) := by
  rcases removepoints_shape st uid clan amount channelId now with
    heq | ⟨u0, cl, cur, hu0, hpos, hle10k, hlep, hv, hcl, heq⟩
  · refine ⟨fun _ => heq, fun h0 u' hu' => ?_⟩
    rw [heq] at hu'
    rw [show ((false, st) : Bool × DB).2 = st from rfl] at hu'
    rw [hu] at hu'
    cases hu'
    exact h0
  · have huu : u0 = u := by
      rw [hu] at hu0
      cases hu0
      rfl
    subst huu
    refine ⟨fun hlt => absurd hlep (by omega), fun h0 u' hu' => ?_⟩
    rw [heq] at hu'
    rw [show ((true, removeSuccess st uid clan amount channelId now u0 cl cur) : Bool × DB).2
        = removeSuccess st uid clan amount channelId now u0 cl cur from rfl,
      removeSuccess_users, upd_same] at hu'
    cases hu'
    simp
    omega

theorem C9_witness :
    stAch.users 1 = some (UserRow.mk (some "A") 150 none none) ∧
    (UserRow.mk (some "A") 150 none none).points < 200 ∧
    removepoints stAch 1 "A" 200 none 0 = (false, stAch) ∧
    (0 ≤ (UserRow.mk (some "A") 150 none none).points ∧
      ∀ u', (removepoints stAch 1 "A" 40 none 0).2.users 1 = some u' → 0 ≤ u'.points) :=
  ⟨by decide, by decide,
    (C9_admin_removal_guard stAch 1 "A" 200 none 0
      (UserRow.mk (some "A") 150 none none) (by decide)).1 (by decide),
    by decide,
    (C9_admin_removal_guard stAch 1 "A" 40 none 0
      (UserRow.mk (some "A") 150 none none) (by decide)).2 (by decide)⟩

/-- C10: a clan whose stored `last_week_start` is the empty string (falsy)
never rolls over: `get_clan_points` returns the stored points and leaves
the state — including `last_week_points` and `last_week_start` — entirely
unchanged, at any read time. -/
theorem C10_empty_lastweekstart_no_rollover (st : DB) (clan : String)
    (cl : ClanRow) (now : Nat) (hc : st.clans clan = some cl)
    (hlws : cl.lastWeekStart = none) :
    get_clan_points st clan now = (some cl.points, st) := by
  unfold get_clan_points
  simp [hc, hlws]

theorem C10_witness :
    stChan.clans "A" = some clanA ∧
    clanA.lastWeekStart = none ∧
    get_clan_points stChan "A" 99999999 = (some clanA.points, stChan) :=
  ⟨by decide, by decide,
    C10_empty_lastweekstart_no_rollover stChan "A" clanA 99999999 (by decide) (by decide)⟩

end ClanBot
